import Mathlib

/-!
Verification of the request-dispatch layer of the Zulip MCP server
(`src/index.ts`).

The embedding models the two core components of the source:

* the `ZulipClient` facade (src/index.ts lines 224-363), one method per
  supported remote operation, and
* the `CallToolRequest` dispatch handler (src/index.ts lines 398-533),
  which validates arguments, routes on the tool name, delegates to the
  facade and wraps the outcome in the uniform response envelope.

Modelling conventions, matching the JavaScript runtime semantics of the
source:

* Every value flowing through the dispatcher (argument bags arriving from
  the MCP transport, results returned by the remote) is parsed JSON, so
  values are modelled by the inductive `Value` below (null, booleans,
  integer numbers, strings, arrays, objects).  JavaScript `undefined` is
  not a JSON value; it arises only as *absence* (of the arguments bag or
  of a named argument) and is modelled with `Option`.
* Every failure the handler can see is a thrown `Error` carrying a message
  string (`new Error(...)` at the throw sites of the handler and of
  `ZulipClient.getMessages`, or whatever the remote call rejected with);
  the `catch` block stringifies it with `error.message`.  Failures are
  therefore modelled as `Except String`.
* The remote workspace API (`this.client.…` calls of zulip-js) is a
  black box and is modelled as an oracle `Remote : RemoteCall → Except
  String Value`.  Every facade method also reports the list of remote
  calls it issued, so that "no remote call is issued" facts are provable.
-/

namespace ZulipMcp

/-! ## JSON values -/

/-- A parsed JSON value.  Numbers are integers: every number the claims
exercise (message ids, stream ids, history limits) is integral, and the
source never produces a fractional number on the paths modelled here. -/
inductive Value : Type where
  | vNull : Value
  | vBool (b : Bool) : Value
  | vNum (n : Int) : Value
  | vStr (s : String) : Value
  | vArr (elems : List Value) : Value
  | vObj (fields : List (String × Value)) : Value

/-- An argument bag or parameter object: an ordered list of key/value
pairs, as a JavaScript object literal is built. -/
abbrev Fields := List (String × Value)

/-- Property access `obj[k]` on an object's field list: the first binding
of the key (keys are unique in every object the source builds or parses),
`none` when the key is absent (JavaScript `undefined`). -/
def lookupField : Fields → String → Option Value
  | [], _ => none
  | (k, v) :: rest, key => if k = key then some v else lookupField rest key

/-- Property access `obj.k` on an arbitrary value: a field of an object,
`none` (undefined) otherwise. -/
def getProp (v : Value) (key : String) : Option Value :=
  match v with
  | .vObj fields => lookupField fields key
  | _ => none

/-- JavaScript truthiness of a JSON value: `false`, `0`, `""` and `null`
are falsy; every other JSON value (including `[]`, empty objects, and
every nonempty string) is truthy. -/
def truthy : Value → Bool
  | .vNull => false
  | .vBool b => b
  | .vNum n => n != 0
  | .vStr s => s != ""
  | .vArr _ => true
  | .vObj _ => true

/-- Truthiness of a possibly-absent value: `undefined` is falsy. -/
def truthyOpt : Option Value → Bool
  | none => false
  | some v => truthy v

/-- JavaScript strict equality `a === b` between a possibly-absent
property and a value.  Primitives compare structurally.  Arrays and
objects compare by reference; the two sides compared in the source
(`s.name`, freshly parsed from the remote response, against the caller's
`streamName`) never alias, so a comparison involving an array or object
is `false`. -/
def strictEq : Option Value → Value → Bool
  | none, _ => false
  | some (.vNull), .vNull => true
  | some (.vBool a), .vBool b => a == b
  | some (.vNum a), .vNum b => a == b
  | some (.vStr a), .vStr b => a == b
  | some _, _ => false

/-! ## `JSON.stringify`

The encoder mirrors `JSON.stringify` on JSON values: no added whitespace,
object fields in insertion order, strings quoted with the two mandatory
escapes (`\"`, `\\`), the named control escapes (`\b`, `\t`, `\n`, `\f`,
`\r`) and `\u00XX` for the remaining control characters. -/

/-- The lowercase hexadecimal digit of `d < 16`. -/
def hexChar (d : Nat) : Char :=
  if d < 10 then Char.ofNat (48 + d) else Char.ofNat (87 + d)

/-- One string character, escaped as `JSON.stringify` emits it. -/
def escChar (c : Char) : List Char :=
  if c = '"' then ['\\', '"']
  else if c = '\\' then ['\\', '\\']
  else if c = '\x08' then ['\\', 'b']
  else if c = '\t' then ['\\', 't']
  else if c = '\n' then ['\\', 'n']
  else if c = '\x0c' then ['\\', 'f']
  else if c = '\r' then ['\\', 'r']
  else if c.toNat < 32 then
    ['\\', 'u', '0', '0', hexChar (c.toNat / 16), hexChar (c.toNat % 16)]
  else [c]

/-- A string body, character by character. -/
def escBody : List Char → List Char
  | [] => []
  | c :: cs => escChar c ++ escBody cs

/-- A quoted, escaped JSON string literal. -/
def encStr (s : String) : List Char :=
  '"' :: (escBody s.data ++ ['"'])

/-- Decimal digit characters of `n`, most significant first.  The fuel
argument makes the recursion structural; `n < fuel` is enough fuel. -/
def natChars : Nat → Nat → List Char
  | 0, _ => []
  | fuel + 1, n =>
    if n < 10 then [Char.ofNat (48 + n)]
    else natChars fuel (n / 10) ++ [Char.ofNat (48 + n % 10)]

/-- The decimal form of an integer, as `JSON.stringify` prints an
integral number: digits, with a leading `-` when negative. -/
def intChars (n : Int) : List Char :=
  if n < 0 then '-' :: natChars (n.natAbs + 1) n.natAbs
  else natChars (n.natAbs + 1) n.natAbs

mutual

/-- A JSON value, serialized to its character sequence. -/
def encVal : Value → List Char
  | .vNull => ['n', 'u', 'l', 'l']
  | .vBool true => ['t', 'r', 'u', 'e']
  | .vBool false => ['f', 'a', 'l', 's', 'e']
  | .vNum n => intChars n
  | .vStr s => encStr s
  | .vArr xs => '[' :: (encElems xs ++ [']'])
  | .vObj fs => '\x7b' :: (encMembers fs ++ ['\x7d'])

/-- Comma-separated array elements. -/
def encElems : List Value → List Char
  | [] => []
  | x :: xs => encVal x ++ encElemsTail xs

/-- Rest of the array elements, each preceded by a comma. -/
def encElemsTail : List Value → List Char
  | [] => []
  | x :: xs => ',' :: (encVal x ++ encElemsTail xs)

/-- Comma-separated `"key":value` members. -/
def encMembers : Fields → List Char
  | [] => []
  | (k, v) :: fs => encStr k ++ ':' :: (encVal v ++ encMembersTail fs)

/-- Rest of the object members, each preceded by a comma. -/
def encMembersTail : Fields → List Char
  | [] => []
  | (k, v) :: fs => ',' :: (encStr k ++ ':' :: (encVal v ++ encMembersTail fs))

end

/-- `JSON.stringify`, as a `String`. -/
def stringify (v : Value) : String :=
  String.mk (encVal v)

/-! ## JSON decoding

A strict JSON decoder over the same value type: no interspersed
whitespace (the encoder above emits none), integral numbers, the escape
forms of RFC 8259.  `decode` is the left inverse of `stringify`, proved
below as `decode_stringify`. -/

/-- The numeric value of a hexadecimal digit character. -/
def hexVal (c : Char) : Option Nat :=
  if 48 ≤ c.toNat ∧ c.toNat ≤ 57 then some (c.toNat - 48)
  else if 97 ≤ c.toNat ∧ c.toNat ≤ 102 then some (c.toNat - 87)
  else if 65 ≤ c.toNat ∧ c.toNat ≤ 70 then some (c.toNat - 55)
  else none

/-- The body of a string literal after the opening quote, with the
characters read so far in `acc` (reversed).  Structural on the input. -/
def scanStr (acc : List Char) : List Char → Option (List Char × List Char)
  | [] => none
  | c :: rest =>
    if c = '"' then some (acc.reverse, rest)
    else if c = '\\' then
      match rest with
      | 'u' :: h1 :: h2 :: h3 :: h4 :: r =>
        match hexVal h1, hexVal h2, hexVal h3, hexVal h4 with
        | some a, some b, some c2, some d =>
          scanStr (Char.ofNat (((a * 16 + b) * 16 + c2) * 16 + d) :: acc) r
        | _, _, _, _ => none
      | e :: r =>
        if e = '"' then scanStr ('"' :: acc) r
        else if e = '\\' then scanStr ('\\' :: acc) r
        else if e = '/' then scanStr ('/' :: acc) r
        else if e = 'b' then scanStr ('\x08' :: acc) r
        else if e = 't' then scanStr ('\t' :: acc) r
        else if e = 'n' then scanStr ('\n' :: acc) r
        else if e = 'f' then scanStr ('\x0c' :: acc) r
        else if e = 'r' then scanStr ('\r' :: acc) r
        else none
      | [] => none
    else scanStr (c :: acc) rest

/-- A run of decimal digits, folded onto the accumulator most significant
first; stops at the first non-digit. -/
def scanNat (acc : Nat) : List Char → Nat × List Char
  | [] => (acc, [])
  | c :: rest =>
    if c.isDigit then scanNat (acc * 10 + (c.toNat - 48)) rest
    else (acc, c :: rest)

mutual

/-- One JSON value from the head of the input.  Structural on `fuel`;
any fuel beyond the input length is enough. -/
def parseVal : Nat → List Char → Option (Value × List Char)
  | 0, _ => none
  | _ + 1, [] => none
  | fuel + 1, c :: rest =>
    if c = 'n' then
      match rest with
      | 'u' :: 'l' :: 'l' :: r => some (.vNull, r)
      | _ => none
    else if c = 't' then
      match rest with
      | 'r' :: 'u' :: 'e' :: r => some (.vBool true, r)
      | _ => none
    else if c = 'f' then
      match rest with
      | 'a' :: 'l' :: 's' :: 'e' :: r => some (.vBool false, r)
      | _ => none
    else if c = '"' then
      match scanStr [] rest with
      | some (body, r) => some (.vStr (String.mk body), r)
      | none => none
    else if c = '[' then
      match rest with
      | [] => none
      | c2 :: r2 =>
        if c2 = ']' then some (.vArr [], r2)
        else
          match parseElems fuel (c2 :: r2) with
          | some (xs, r) => some (.vArr xs, r)
          | none => none
    else if c = '\x7b' then
      match rest with
      | [] => none
      | c2 :: r2 =>
        if c2 = '\x7d' then some (.vObj [], r2)
        else
          match parseMembers fuel (c2 :: r2) with
          | some (fs, r) => some (.vObj fs, r)
          | none => none
    else if c = '-' then
      match rest with
      | [] => none
      | d :: _ =>
        if d.isDigit then
          let p := scanNat 0 rest
          some (.vNum (-(p.1 : Int)), p.2)
        else none
    else if c.isDigit then
      let p := scanNat 0 (c :: rest)
      some (.vNum (p.1 : Int), p.2)
    else none

/-- One or more comma-separated array elements, up to and including the
closing bracket (the empty array is handled in `parseVal`). -/
def parseElems : Nat → List Char → Option (List Value × List Char)
  | 0, _ => none
  | fuel + 1, input =>
    match parseVal fuel input with
    | none => none
    | some (v, rest) =>
      match rest with
      | ']' :: r => some ([v], r)
      | ',' :: r =>
        match parseElems fuel r with
        | some (vs, r2) => some (v :: vs, r2)
        | none => none
      | _ => none

/-- One or more comma-separated `"key":value` members, up to and
including the closing brace (the empty object is handled in `parseVal`). -/
def parseMembers : Nat → List Char → Option (Fields × List Char)
  | 0, _ => none
  | fuel + 1, input =>
    match input with
    | '"' :: r1 =>
      match scanStr [] r1 with
      | none => none
      | some (key, r2) =>
        match r2 with
        | ':' :: r3 =>
          match parseVal fuel r3 with
          | none => none
          | some (v, r4) =>
            match r4 with
            | c :: r5 =>
              if c = '\x7d' then some ([(String.mk key, v)], r5)
              else if c = ',' then
                match parseMembers fuel r5 with
                | some (fs, r6) => some ((String.mk key, v) :: fs, r6)
                | none => none
              else none
            | [] => none
        | _ => none
    | _ => none

end

/-- `JSON.parse` on the decoder's grammar: the whole input must be one
JSON value with nothing trailing. -/
def decode (s : String) : Option Value :=
  match parseVal (s.data.length + 1) s.data with
  | some (v, []) => some v
  | _ => none

/-! ## The decode/stringify round trip

`decode (stringify v) = some v` for every value, proved below as
`decode_stringify` by structural induction mirroring the encoder, with a
character-length fuel bound for the parser. -/

/-- A decimal digit character carries its value and tests as a digit. -/
theorem digitChar_spec : ∀ d, d < 10 →
    (Char.ofNat (48 + d)).isDigit = true ∧ (Char.ofNat (48 + d)).toNat = 48 + d := by
  decide

/-- `hexVal` recovers the value `hexChar` encodes. -/
theorem hexVal_hexChar : ∀ d, d < 16 → hexVal (hexChar d) = some d := by
  decide

/-- The scanner decodes a `\uXXXX` escape. -/
theorem scanStr_unicode (u1 u2 u3 u4 : Char) (a b c2 d : Nat) (acc rest : List Char)
    (ha : hexVal u1 = some a) (hb : hexVal u2 = some b) (hc : hexVal u3 = some c2)
    (hd : hexVal u4 = some d) :
    scanStr acc ('\\' :: 'u' :: u1 :: u2 :: u3 :: u4 :: rest)
      = scanStr (Char.ofNat (((a * 16 + b) * 16 + c2) * 16 + d) :: acc) rest := by
  show (match hexVal u1, hexVal u2, hexVal u3, hexVal u4 with
        | some a, some b, some c2, some d =>
          scanStr (Char.ofNat (((a * 16 + b) * 16 + c2) * 16 + d) :: acc) rest
        | _, _, _, _ => none) = _
  rw [ha, hb, hc, hd]

/-- The scanner consumes one escaped character and keeps going. -/
theorem scanStr_escChar (c : Char) (acc rest : List Char) :
    scanStr acc (escChar c ++ rest) = scanStr (c :: acc) rest := by
  by_cases h1 : c = '"'
  · subst h1; simp only [escChar, if_pos rfl]; rfl
  by_cases h2 : c = '\\'
  · subst h2; simp only [escChar]; rfl
  by_cases h3 : c = '\x08'
  · subst h3; simp only [escChar]; rfl
  by_cases h4 : c = '\t'
  · subst h4; simp only [escChar]; rfl
  by_cases h5 : c = '\n'
  · subst h5; simp only [escChar]; rfl
  by_cases h6 : c = '\x0c'
  · subst h6; simp only [escChar]; rfl
  by_cases h7 : c = '\r'
  · subst h7; simp only [escChar]; rfl
  by_cases h8 : c.toNat < 32
  · simp only [escChar, if_neg h1, if_neg h2, if_neg h3, if_neg h4, if_neg h5, if_neg h6,
      if_neg h7, if_pos h8, List.cons_append, List.nil_append]
    rw [scanStr_unicode '0' '0' (hexChar (c.toNat / 16)) (hexChar (c.toNat % 16))
      0 0 (c.toNat / 16) (c.toNat % 16) acc rest rfl rfl
      (hexVal_hexChar _ (by omega)) (hexVal_hexChar _ (by omega))]
    rw [show ((0 * 16 + 0) * 16 + c.toNat / 16) * 16 + c.toNat % 16 = c.toNat by omega,
      Char.ofNat_toNat]
  · simp only [escChar, if_neg h1, if_neg h2, if_neg h3, if_neg h4, if_neg h5, if_neg h6,
      if_neg h7, if_neg h8, List.cons_append, List.nil_append]
    rw [scanStr.eq_def]
    simp [if_neg h1, if_neg h2]

/-- The scanner undoes the encoder's escaping of a whole string body,
stopping exactly at the closing quote. -/
theorem scanStr_escBody : ∀ (cs acc rest : List Char),
    scanStr acc (escBody cs ++ '"' :: rest) = some (acc.reverse ++ cs, rest)
  | [], acc, rest => by
    simp only [escBody, List.nil_append]
    rw [scanStr.eq_def]
    simp
  | c :: cs, acc, rest => by
    rw [escBody, List.append_assoc, scanStr_escChar, scanStr_escBody cs (c :: acc) rest]
    simp

/-- An input that does not begin with a decimal digit, so that a digit
run ending right before it cannot be extended. -/
def noDigitHead : List Char → Bool
  | [] => true
  | c :: _ => !c.isDigit

/-- `natChars` is fuel-independent once the fuel exceeds the number. -/
theorem natChars_fuel : ∀ f g n, n < f → n < g → natChars f n = natChars g n
  | f + 1, g + 1, n, hf, hg => by
    rw [natChars, natChars]
    by_cases h : n < 10
    · simp [h]
    · have hrec : natChars f (n / 10) = natChars g (n / 10) :=
        natChars_fuel f g (n / 10) (by omega) (by omega)
      simp [h, hrec]

/-- Every character `natChars` emits is a decimal digit. -/
theorem natChars_digits : ∀ f n c, c ∈ natChars f n → c.isDigit = true
  | f + 1, n, c, hc => by
    rw [natChars] at hc
    by_cases h : n < 10
    · rw [if_pos h] at hc
      rw [List.mem_singleton] at hc
      subst hc
      exact (digitChar_spec n h).1
    · rw [if_neg h, List.mem_append] at hc
      rcases hc with hc | hc
      · exact natChars_digits f (n / 10) c hc
      · rw [List.mem_singleton] at hc
        subst hc
        exact (digitChar_spec (n % 10) (by omega)).1

/-- With enough fuel the digit run is nonempty and starts with a digit. -/
theorem natChars_cons (f n : Nat) (h : n < f) :
    ∃ d t, natChars f n = d :: t ∧ d.isDigit = true := by
  match f, h with
  | f + 1, h =>
    rw [natChars]
    by_cases h10 : n < 10
    · exact ⟨_, _, by rw [if_pos h10], (digitChar_spec n h10).1⟩
    · obtain ⟨d, t, hdt, hd⟩ := natChars_cons f (n / 10) (by omega)
      exact ⟨d, t ++ [Char.ofNat (48 + n % 10)], by rw [if_neg h10, hdt]; rfl, hd⟩

/-- `scanNat` folds an encoded digit run into the accumulator and keeps
scanning the remainder. -/
theorem scanNat_natChars : ∀ f n acc rest, n < f →
    scanNat acc (natChars f n ++ rest)
      = scanNat (acc * 10 ^ (natChars f n).length + n) rest
  | f + 1, n, acc, rest, hf => by
    rw [natChars]
    by_cases h : n < 10
    · rw [if_pos h]
      have hd := digitChar_spec n h
      simp only [List.cons_append, List.nil_append, scanNat, hd.1, if_pos]
      rw [hd.2]
      norm_num
    · rw [if_neg h]
      have hd := digitChar_spec (n % 10) (by omega)
      rw [List.append_assoc, List.cons_append, List.nil_append,
        scanNat_natChars f (n / 10) acc _ (by omega)]
      simp only [scanNat, hd.1, if_pos]
      rw [hd.2]
      rw [List.length_append, List.length_singleton, pow_succ]
      congr 1
      have hmod : 48 + n % 10 - 48 = n % 10 := by omega
      rw [hmod]
      have : (acc * 10 ^ (natChars f (n / 10)).length + n / 10) * 10 + n % 10
          = acc * (10 ^ (natChars f (n / 10)).length * 10) + (n / 10 * 10 + n % 10) := by
        ring
      rw [this]
      congr 1
      omega

/-- `scanNat` stops at a non-digit boundary. -/
theorem scanNat_stop (acc : Nat) (rest : List Char) (h : noDigitHead rest = true) :
    scanNat acc rest = (acc, rest) := by
  match rest with
  | [] => rfl
  | c :: t =>
    rw [noDigitHead, Bool.not_eq_true'] at h
    rw [scanNat, if_neg (by simp [h])]

/-- Every encoded value begins with a character, and that character
closes no array (the head is a keyword letter, quote, bracket, brace,
minus sign or digit). -/
theorem encVal_cons (v : Value) :
    ∃ c t, encVal v = c :: t ∧ ¬(c = ']') := by
  match v with
  | .vNull => exact ⟨'n', _, rfl, by decide⟩
  | .vBool true => exact ⟨'t', _, rfl, by decide⟩
  | .vBool false => exact ⟨'f', _, rfl, by decide⟩
  | .vStr s => exact ⟨'"', _, rfl, by decide⟩
  | .vArr xs => exact ⟨'[', _, rfl, by decide⟩
  | .vObj fs => exact ⟨'\x7b', _, rfl, by decide⟩
  | .vNum n =>
    rw [encVal, intChars]
    by_cases h : n < 0
    · exact ⟨'-', _, by rw [if_pos h], by decide⟩
    · obtain ⟨d, t, hdt, hd⟩ := natChars_cons (n.natAbs + 1) n.natAbs (by omega)
      refine ⟨d, t, by rw [if_neg h, hdt], fun he => ?_⟩
      subst he
      exact absurd hd (by decide)

/-- An encoded value is at least one character long. -/
theorem encVal_length_pos (v : Value) : 1 ≤ (encVal v).length := by
  obtain ⟨c, t, h, _⟩ := encVal_cons v
  rw [h]
  simp

/-- One unfolding step of the value parser at successor fuel on a
nonempty input (definitional). -/
theorem parseVal_step (fuel : Nat) (c : Char) (rest : List Char) :
    parseVal (fuel + 1) (c :: rest)
      = (if c = 'n' then
          match rest with
          | 'u' :: 'l' :: 'l' :: r => some (.vNull, r)
          | _ => none
        else if c = 't' then
          match rest with
          | 'r' :: 'u' :: 'e' :: r => some (.vBool true, r)
          | _ => none
        else if c = 'f' then
          match rest with
          | 'a' :: 'l' :: 's' :: 'e' :: r => some (.vBool false, r)
          | _ => none
        else if c = '"' then
          match scanStr [] rest with
          | some (body, r) => some (.vStr (String.mk body), r)
          | none => none
        else if c = '[' then
          match rest with
          | [] => none
          | c2 :: r2 =>
            if c2 = ']' then some (.vArr [], r2)
            else
              match parseElems fuel (c2 :: r2) with
              | some (xs, r) => some (.vArr xs, r)
              | none => none
        else if c = '\x7b' then
          match rest with
          | [] => none
          | c2 :: r2 =>
            if c2 = '\x7d' then some (.vObj [], r2)
            else
              match parseMembers fuel (c2 :: r2) with
              | some (fs, r) => some (.vObj fs, r)
              | none => none
        else if c = '-' then
          match rest with
          | [] => none
          | d :: _ =>
            if d.isDigit then
              let p := scanNat 0 rest
              some (.vNum (-(p.1 : Int)), p.2)
            else none
        else if c.isDigit then
          let p := scanNat 0 (c :: rest)
          some (.vNum (p.1 : Int), p.2)
        else none) := rfl

/-- One unfolding step of the element parser at successor fuel
(definitional). -/
theorem parseElems_step (fuel : Nat) (input : List Char) :
    parseElems (fuel + 1) input
      = (match parseVal fuel input with
         | none => none
         | some (v, rest) =>
           match rest with
           | ']' :: r => some ([v], r)
           | ',' :: r =>
             match parseElems fuel r with
             | some (vs, r2) => some (v :: vs, r2)
             | none => none
           | _ => none) := rfl

/-- One unfolding step of the member parser at successor fuel
(definitional). -/
theorem parseMembers_step (fuel : Nat) (input : List Char) :
    parseMembers (fuel + 1) input
      = (match input with
         | '"' :: r1 =>
           match scanStr [] r1 with
           | none => none
           | some (key, r2) =>
             match r2 with
             | ':' :: r3 =>
               match parseVal fuel r3 with
               | none => none
               | some (v, r4) =>
                 match r4 with
                 | c :: r5 =>
                   if c = '\x7d' then some ([(String.mk key, v)], r5)
                   else if c = ',' then
                     match parseMembers fuel r5 with
                     | some (fs, r6) => some ((String.mk key, v) :: fs, r6)
                     | none => none
                   else none
                 | [] => none
             | _ => none
         | _ => none) := rfl

/-- The member parser on a quoted key (definitional). -/
theorem parseMembers_quote (fuel : Nat) (tail : List Char) :
    parseMembers (fuel + 1) ('"' :: tail)
      = (match scanStr [] tail with
         | none => none
         | some (key, r2) =>
           match r2 with
           | ':' :: r3 =>
             match parseVal fuel r3 with
             | none => none
             | some (v, r4) =>
               match r4 with
               | c :: r5 =>
                 if c = '\x7d' then some ([(String.mk key, v)], r5)
                 else if c = ',' then
                   match parseMembers fuel r5 with
                   | some (fs, r6) => some ((String.mk key, v) :: fs, r6)
                   | none => none
                 else none
               | [] => none
           | _ => none) := rfl

/-- The parser branch for a digit head: a number is scanned. -/
theorem parseVal_digit (f : Nat) (c : Char) (rest : List Char) (hc : c.isDigit = true) :
    parseVal (f + 1) (c :: rest)
      = some (.vNum ((scanNat 0 (c :: rest)).1 : Int), (scanNat 0 (c :: rest)).2) := by
  have h1 : ¬(c = 'n') := fun h => by subst h; exact absurd hc (by decide)
  have h2 : ¬(c = 't') := fun h => by subst h; exact absurd hc (by decide)
  have h3 : ¬(c = 'f') := fun h => by subst h; exact absurd hc (by decide)
  have h4 : ¬(c = '"') := fun h => by subst h; exact absurd hc (by decide)
  have h5 : ¬(c = '[') := fun h => by subst h; exact absurd hc (by decide)
  have h6 : ¬(c = '\x7b') := fun h => by subst h; exact absurd hc (by decide)
  have h7 : ¬(c = '-') := fun h => by subst h; exact absurd hc (by decide)
  rw [parseVal_step, if_neg h1, if_neg h2, if_neg h3, if_neg h4, if_neg h5, if_neg h6,
    if_neg h7, if_pos hc]

/-- The parser branch for a minus sign followed by a digit. -/
theorem parseVal_minus (f : Nat) (d : Char) (tr : List Char) (hd : d.isDigit = true) :
    parseVal (f + 1) ('-' :: d :: tr)
      = some (.vNum (-((scanNat 0 (d :: tr)).1 : Int)), (scanNat 0 (d :: tr)).2) := by
  show (if d.isDigit then
          some (Value.vNum (-((scanNat 0 (d :: tr)).1 : Int)), (scanNat 0 (d :: tr)).2)
        else none) = _
  rw [if_pos hd]

/-- The parser branch for an opening quote: the string scanner runs. -/
theorem parseVal_quote (f : Nat) (tail : List Char) :
    parseVal (f + 1) ('"' :: tail)
      = (match scanStr [] tail with
         | some (body, r) => some (.vStr (String.mk body), r)
         | none => none) := rfl

/-- The parser branch for a nonempty array: the element loop runs. -/
theorem parseVal_lbrack (f : Nat) (c2 : Char) (r2 : List Char) (h : ¬(c2 = ']')) :
    parseVal (f + 1) ('[' :: c2 :: r2)
      = (match parseElems f (c2 :: r2) with
         | some (xs, r) => some (.vArr xs, r)
         | none => none) := by
  show (if c2 = ']' then some (Value.vArr [], r2)
        else match parseElems f (c2 :: r2) with
             | some (xs, r) => some (.vArr xs, r)
             | none => none) = _
  rw [if_neg h]

/-- The parser branch for a nonempty object: the member loop runs. -/
theorem parseVal_lbrace (f : Nat) (c2 : Char) (r2 : List Char) (h : ¬(c2 = '\x7d')) :
    parseVal (f + 1) ('\x7b' :: c2 :: r2)
      = (match parseMembers f (c2 :: r2) with
         | some (fs, r) => some (.vObj fs, r)
         | none => none) := by
  show (if c2 = '\x7d' then some (Value.vObj [], r2)
        else match parseMembers f (c2 :: r2) with
             | some (fs, r) => some (.vObj fs, r)
             | none => none) = _
  rw [if_neg h]

/-- The encoded digits of a nonnegative number scan back to it. -/
theorem scanNat_intChars (n : Int) (rest : List Char) (hres : noDigitHead rest = true) :
    scanNat 0 (natChars (n.natAbs + 1) n.natAbs ++ rest) = (n.natAbs, rest) := by
  rw [scanNat_natChars (n.natAbs + 1) n.natAbs 0 rest (by omega),
    Nat.zero_mul, Nat.zero_add, scanNat_stop _ _ hres]

mutual

/-- Parsing an encoded value with enough fuel recovers it exactly,
leaving the remainder untouched, whenever the remainder cannot extend a
digit run. -/
theorem rt_val : ∀ (v : Value) (fuel : Nat) (rest : List Char),
    (encVal v).length < fuel → noDigitHead rest = true →
    parseVal fuel (encVal v ++ rest) = some (v, rest)
  | .vNull, fuel, rest, hf, _ => by
    match fuel, hf with
    | f + 1, _ => rfl
  | .vBool true, fuel, rest, hf, _ => by
    match fuel, hf with
    | f + 1, _ => rfl
  | .vBool false, fuel, rest, hf, _ => by
    match fuel, hf with
    | f + 1, _ => rfl
  | .vNum n, fuel, rest, hf, hres => by
    match fuel, hf with
    | f + 1, _ =>
      rw [encVal, intChars]
      by_cases h : n < 0
      · rw [if_pos h]
        obtain ⟨d, t, hdt, hd⟩ := natChars_cons (n.natAbs + 1) n.natAbs (by omega)
        rw [hdt, List.cons_append, List.cons_append, parseVal_minus f d (t ++ rest) hd,
          ← List.cons_append, ← hdt, scanNat_intChars n rest hres]
        have hn : -((n.natAbs : Nat) : Int) = n := by omega
        rw [hn]
      · rw [if_neg h]
        obtain ⟨d, t, hdt, hd⟩ := natChars_cons (n.natAbs + 1) n.natAbs (by omega)
        rw [hdt, List.cons_append, parseVal_digit f d (t ++ rest) hd,
          ← List.cons_append, ← hdt, scanNat_intChars n rest hres]
        have hn : ((n.natAbs : Nat) : Int) = n := by omega
        rw [hn]
  | .vStr s, fuel, rest, hf, _ => by
    match fuel, hf with
    | f + 1, _ =>
      rw [encVal, encStr, List.cons_append, List.append_assoc, List.singleton_append,
        parseVal_quote, scanStr_escBody s.data [] rest]
      simp
  | .vArr [], fuel, rest, hf, _ => by
    match fuel, hf with
    | f + 1, _ => rfl
  | .vArr (x :: xs), fuel, rest, hf, _ => by
    match fuel, hf with
    | f + 1, hf =>
      obtain ⟨c, t, hct, hc⟩ := encVal_cons x
      have hflen : (encElems (x :: xs)).length + 1 < f := by
        rw [encVal] at hf
        simp at hf
        omega
      have hshape : encElems (x :: xs) ++ ']' :: rest
          = c :: (t ++ encElemsTail xs ++ ']' :: rest) := by
        rw [encElems, hct]
        simp [List.append_assoc]
      have harg : encVal (.vArr (x :: xs)) ++ rest
          = '[' :: c :: (t ++ encElemsTail xs ++ ']' :: rest) := by
        rw [encVal, List.cons_append, List.append_assoc, List.singleton_append, hshape]
      have key := rt_elems x xs f rest hflen
      rw [harg, parseVal_lbrack f c _ hc, ← hshape, key]
  | .vObj [], fuel, rest, hf, _ => by
    match fuel, hf with
    | f + 1, _ => rfl
  | .vObj (m :: fs), fuel, rest, hf, _ => by
    match fuel, hf with
    | f + 1, hf =>
      have hflen : (encMembers (m :: fs)).length + 1 < f := by
        rw [encVal] at hf
        simp at hf
        omega
      have hshape : encMembers (m :: fs) ++ '\x7d' :: rest
          = '"' :: (escBody m.1.data ++ '"' :: (':' :: (encVal m.2
              ++ (encMembersTail fs ++ '\x7d' :: rest)))) := by
        match m with
        | (k, v) =>
          rw [encMembers, encStr]
          simp [List.append_assoc]
      have harg : encVal (.vObj (m :: fs)) ++ rest
          = '\x7b' :: (encMembers (m :: fs) ++ '\x7d' :: rest) := by
        rw [encVal]
        simp [List.append_assoc]
      have key := rt_members m fs f rest hflen
      rw [harg, hshape, parseVal_lbrace f '"' _ (by decide), ← hshape, key]
  termination_by v _ _ _ _ => sizeOf v

/-- Parsing the encoded elements of a nonempty array recovers them,
consuming the closing bracket. -/
theorem rt_elems : ∀ (x : Value) (xs : List Value) (fuel : Nat) (rest : List Char),
    (encElems (x :: xs)).length + 1 < fuel →
    parseElems fuel (encElems (x :: xs) ++ ']' :: rest) = some (x :: xs, rest)
  | x, [], fuel, rest, hf => by
    match fuel, hf with
    | f + 1, hf =>
      have hx : (encVal x).length < f := by
        rw [encElems, encElemsTail, List.append_nil] at hf
        omega
      have hv := rt_val x f (']' :: rest) hx rfl
      rw [encElems, encElemsTail, List.append_nil, parseElems_step, hv]
      rfl
  | x, y :: ys, fuel, rest, hf => by
    match fuel, hf with
    | f + 1, hf =>
      have hlen : (encElems (x :: y :: ys)).length
          = (encVal x).length + 1 + (encElems (y :: ys)).length := by
        simp only [encElems, encElemsTail, List.length_append, List.length_cons]
        omega
      have hx : (encVal x).length < f := by
        have hq : 1 ≤ (encElems (y :: ys)).length := by
          have hp := encVal_length_pos y
          simp only [encElems, List.length_append]
          omega
        rw [hlen] at hf
        omega
      have hy : (encElems (y :: ys)).length + 1 < f := by
        have := encVal_length_pos x
        rw [hlen] at hf
        omega
      have hshape : encElems (x :: y :: ys) ++ ']' :: rest
          = encVal x ++ ',' :: (encElems (y :: ys) ++ ']' :: rest) := by
        simp only [encElems, encElemsTail]
        simp [List.append_assoc]
      have hv := rt_val x f (',' :: (encElems (y :: ys) ++ ']' :: rest)) hx rfl
      have key := rt_elems y ys f rest hy
      rw [hshape, parseElems_step, hv]
      simp only [key]
  termination_by x xs _ _ _ => sizeOf x + sizeOf xs

/-- Parsing the encoded members of a nonempty object recovers them,
consuming the closing brace. -/
theorem rt_members : ∀ (m : String × Value) (fs : Fields) (fuel : Nat) (rest : List Char),
    (encMembers (m :: fs)).length + 1 < fuel →
    parseMembers fuel (encMembers (m :: fs) ++ '\x7d' :: rest) = some (m :: fs, rest)
  | (k, v), [], fuel, rest, hf => by
    match fuel, hf with
    | f + 1, hf =>
      have hv : (encVal v).length < f := by
        rw [encMembers, encMembersTail, encStr, List.append_nil] at hf
        simp at hf
        omega
      have hshape : encMembers ((k, v) :: []) ++ '\x7d' :: rest
          = '"' :: (escBody k.data ++ '"' :: (':' :: (encVal v ++ '\x7d' :: rest))) := by
        rw [encMembers, encMembersTail, encStr, List.append_nil]
        simp [List.append_assoc]
      have hval := rt_val v f ('\x7d' :: rest) hv rfl
      rw [hshape, parseMembers_quote, scanStr_escBody k.data [] _]
      simp [hval]
  | (k, v), m2 :: fs2, fuel, rest, hf => by
    match fuel, hf with
    | f + 1, hf =>
      have hmt : encMembersTail (m2 :: fs2) = ',' :: encMembers (m2 :: fs2) := by
        match m2 with
        | (k2, v2) => rw [encMembersTail, encMembers]
      have hlen : (encMembers ((k, v) :: m2 :: fs2)).length
          = (encStr k).length + 1 + (encVal v).length + 1 + (encMembers (m2 :: fs2)).length := by
        rw [encMembers, hmt]
        simp
        omega
      have hv : (encVal v).length < f := by
        rw [hlen] at hf
        have hm2p : 1 ≤ (encMembers (m2 :: fs2)).length := by
          match m2 with
          | (k2, v2) =>
            rw [encMembers, encStr]
            simp
        omega
      have hm2 : (encMembers (m2 :: fs2)).length + 1 < f := by
        rw [hlen] at hf
        have hkey : 2 ≤ (encStr k).length := by
          rw [encStr]
          simp
        omega
      have hshape : encMembers ((k, v) :: m2 :: fs2) ++ '\x7d' :: rest
          = '"' :: (escBody k.data ++ '"' :: (':' :: (encVal v
              ++ ',' :: (encMembers (m2 :: fs2) ++ '\x7d' :: rest)))) := by
        rw [encMembers, hmt, encStr]
        simp [List.append_assoc]
      have hval := rt_val v f (',' :: (encMembers (m2 :: fs2) ++ '\x7d' :: rest)) hv rfl
      have key := rt_members m2 fs2 f rest hm2
      rw [hshape, parseMembers_quote, scanStr_escBody k.data [] _]
      simp [hval, key]
  termination_by m fs _ _ _ => sizeOf m + sizeOf fs

end

/-- The decode/stringify round trip: serializing any value and decoding
the resulting text yields the value back exactly — nothing is added,
dropped or reordered. -/
theorem decode_stringify (v : Value) : decode (stringify v) = some v := by
  have h := rt_val v ((encVal v).length + 1) [] (by omega) rfl
  rw [List.append_nil] at h
  rw [decode, stringify]
  show (match parseVal ((encVal v).length + 1) (encVal v) with
        | some (w, []) => some w
        | _ => none) = some v
  rw [h]

/-! ## The remote workspace boundary

The zulip-js connection object is out of scope; each facade method
issues exactly one request on it.  An oracle decides, per call, the raw
parsed result or the failure message of a rejection. -/

/-- One request to the remote workspace API, with the parameter object
the facade built for it: `client.streams.retrieve`, `client.messages.send`,
`client.reactions.add`, `client.messages.retrieve`,
`client.streams.topics.retrieve`, `client.streams.subscribe` or
`client.users.retrieve`. -/
inductive RemoteCall : Type where
  | streamsRetrieve (params : Fields) : RemoteCall
  | messagesSend (params : Fields) : RemoteCall
  | reactionsAdd (params : Fields) : RemoteCall
  | messagesRetrieve (params : Fields) : RemoteCall
  | topicsRetrieve (params : Fields) : RemoteCall
  | streamsSubscribe (params : Fields) : RemoteCall
  | usersRetrieve : RemoteCall

/-- The remote workspace as a black box: every call either returns a raw
parsed result or fails with a message. -/
def Remote : Type :=
  RemoteCall → Except String Value

/-! ## The `ZulipClient` facade (src/index.ts 224-363)

Each method returns the outcome of its remote call together with the
list of remote calls it issued, in order.  Every method wraps its body
in `try/catch` whose handler logs and rethrows the error unchanged, so
failures pass through unmodified. -/

/-- `ZulipClient.getStreams` (lines 240-261).  The TS default parameters
(`false`, `true`, `true`) apply when the caller passes `undefined`.  A
flag enters the `params` object only when it deviates from the remote
default: `include_private` set when truthy, `include_web_public` and
`include_subscribed` set when falsy. -/
def getStreams (remote : Remote)
    (includePrivate includeWebPublic includeSubscribed : Option Value) :
    Except String Value × List RemoteCall :=
  let ip := includePrivate.getD (.vBool false)
  let iw := includeWebPublic.getD (.vBool true)
  let isub := includeSubscribed.getD (.vBool true)
  let params : Fields :=
    (if truthy ip then [("include_private", Value.vBool true)] else [])
      ++ (if truthy iw then [] else [("include_web_public", Value.vBool false)])
      ++ (if truthy isub then [] else [("include_subscribed", Value.vBool false)])
  (remote (.streamsRetrieve params), [.streamsRetrieve params])

/-- `ZulipClient.sendStreamMessage` (lines 263-277). -/
def sendStreamMessage (remote : Remote) (streamName topic content : Value) :
    Except String Value × List RemoteCall :=
  let params : Fields :=
    [("to", streamName), ("type", Value.vStr "stream"), ("topic", topic),
     ("content", content)]
  (remote (.messagesSend params), [.messagesSend params])

/-- `ZulipClient.sendDirectMessage` (lines 279-292). -/
def sendDirectMessage (remote : Remote) (recipients content : Value) :
    Except String Value × List RemoteCall :=
  let params : Fields :=
    [("to", recipients), ("type", Value.vStr "private"), ("content", content)]
  (remote (.messagesSend params), [.messagesSend params])

/-- `ZulipClient.addReaction` (lines 294-304). -/
def addReaction (remote : Remote) (messageId emojiName : Value) :
    Except String Value × List RemoteCall :=
  let params : Fields := [("message_id", messageId), ("emoji_name", emojiName)]
  (remote (.reactionsAdd params), [.reactionsAdd params])

mutual

/-- The string a JavaScript template literal interpolates for a value:
identity on strings, decimal on numbers, `null`/`true`/`false` keywords,
comma-joined elements (null as empty) for arrays, `[object Object]` for
objects. -/
def jsToString : Value → String
  | .vNull => "null"
  | .vBool true => "true"
  | .vBool false => "false"
  | .vNum n => String.mk (intChars n)
  | .vStr s => s
  | .vArr xs => jsToStringElems xs
  | .vObj _ => "[object Object]"

def jsToStringElems : List Value → String
  | [] => ""
  | x :: xs =>
    (match x with
     | .vNull => ""
     | v => jsToString v) ++ jsToStringRest xs

def jsToStringRest : List Value → String
  | [] => ""
  | x :: xs =>
    "," ++
    (match x with
     | .vNull => ""
     | v => jsToString v) ++ jsToStringRest xs

end

/-- `streamsResponse.streams.find((s) => s.name === streamName)`
(line 310): the first stream whose `name` property is strictly equal to
the requested name.  (An array element without a `name` property
compares unequal via `undefined`; the remote's stream records always
carry string names.) -/
def findByName : List Value → Value → Option Value
  | [], _ => none
  | s :: rest, name =>
    if strictEq (getProp s "name") name then some s else findByName rest name

/-- `ZulipClient.getMessages` (lines 306-334): list all streams (private,
web-public and subscribed all included), resolve the stream by exact
name match — failing with the not-found `Error` naming the stream — then
retrieve messages with the two-part stream+topic narrow serialized as
JSON, `num_before = num_after = Math.floor(limit / 2)` and the given
anchor.  `limit` is declared `number` in `GetChannelHistoryArgs` and
`anchor` is passed through as-is; `none` selects the TS defaults `20`
and `"newest"`.  On a streams response whose `streams` property is not
an array, `.find` raises a `TypeError` (its message is runtime-specific;
the claims only use that the call fails before any message retrieval). -/
def getMessages (remote : Remote) (streamName topic : Value)
    (limit : Option Int) (anchor : Option Value) :
    Except String Value × List RemoteCall :=
  let lim := limit.getD 20
  let anc := anchor.getD (.vStr "newest")
  match getStreams remote (some (.vBool true)) (some (.vBool true)) (some (.vBool true)) with
  | (.error e, calls) => (.error e, calls)
  | (.ok resp, calls) =>
    match getProp resp "streams" with
    | some (.vArr streams) =>
      match findByName streams streamName with
      | some _ =>
        let narrow := Value.vArr
          [.vObj [("operator", Value.vStr "stream"), ("operand", streamName)],
           .vObj [("operator", Value.vStr "topic"), ("operand", topic)]]
        let params : Fields :=
          [("narrow", Value.vStr (stringify narrow)),
           ("num_before", Value.vNum (Int.fdiv lim 2)),
           ("num_after", Value.vNum (Int.fdiv lim 2)),
           ("anchor", anc)]
        (remote (.messagesRetrieve params), calls ++ [.messagesRetrieve params])
      | none =>
        (.error ("Stream \"" ++ jsToString streamName ++ "\" not found"), calls)
    | _ => (.error "TypeError", calls)

/-- `ZulipClient.getTopics` (lines 336-343). -/
def getTopics (remote : Remote) (streamId : Value) :
    Except String Value × List RemoteCall :=
  let params : Fields := [("stream_id", streamId)]
  (remote (.topicsRetrieve params), [.topicsRetrieve params])

/-- `ZulipClient.subscribeToStream` (lines 345-353): a single-element
subscription list carrying the name, serialized as JSON. -/
def subscribeToStream (remote : Remote) (streamName : Value) :
    Except String Value × List RemoteCall :=
  let params : Fields :=
    [("subscriptions",
      Value.vStr (stringify (.vArr [.vObj [("name", streamName)]])))]
  (remote (.streamsSubscribe params), [.streamsSubscribe params])

/-- `ZulipClient.getUsers` (lines 355-362). -/
def getUsers (remote : Remote) : Except String Value × List RemoteCall :=
  (remote .usersRetrieve, [.usersRetrieve])

/-! ## The tool dispatcher (src/index.ts 398-533) -/

/-- An incoming tool call: `request.params.name` and
`request.params.arguments`, the latter possibly absent. -/
structure ToolCallRequest where
  name : String
  arguments : Option Fields

/-- One `{type: "text", text: …}` content item. -/
structure TextContent where
  type : String
  text : String
  deriving DecidableEq

/-- The response envelope handed back to the transport. -/
structure ToolCallResponse where
  content : List TextContent
  deriving DecidableEq

/-- `args[key]` for an argument validated as present: JavaScript would
yield `undefined` on an absent key, but every use site sits under the
guard that just checked the key. -/
def jsGet (args : Fields) (key : String) : Value :=
  (lookupField args key).getD .vNull

/-- The `limit` argument as the facade's declared `number` parameter: a
JSON number is passed through, an absent (or non-numeric, outside the
declared `GetChannelHistoryArgs` interface) limit selects the default. -/
def asNum : Option Value → Option Int
  | some (.vNum n) => some n
  | _ => none

/-- The body of the `CallToolRequest` handler's `try` block (lines
402-518): the arguments presence check, then the `switch` on the tool
name — per-case required-argument validation and delegation to the
facade — with the unknown-tool failure as the `default` case.  The value
of the computation is the raw facade result that the handler would
serialize; every `throw` is the corresponding `Error`'s message. -/
def dispatchTry (remote : Remote) (req : ToolCallRequest) :
    Except String Value × List RemoteCall :=
  match req.arguments with
  | none => (.error "No arguments provided", [])
  | some args =>
    if req.name = "zulip_list_channels" then
      getStreams remote (lookupField args "include_private")
        (lookupField args "include_web_public") (lookupField args "include_subscribed")
    else if req.name = "zulip_post_message" then
      if !truthyOpt (lookupField args "channel_name")
          || !truthyOpt (lookupField args "topic")
          || !truthyOpt (lookupField args "content") then
        (.error "Missing required arguments: channel_name, topic, and content", [])
      else
        sendStreamMessage remote (jsGet args "channel_name") (jsGet args "topic")
          (jsGet args "content")
    else if req.name = "zulip_send_direct_message" then
      if !truthyOpt (lookupField args "recipients")
          || !truthyOpt (lookupField args "content") then
        (.error "Missing required arguments: recipients and content", [])
      else
        sendDirectMessage remote (jsGet args "recipients") (jsGet args "content")
    else if req.name = "zulip_add_reaction" then
      if (lookupField args "message_id").isNone
          || !truthyOpt (lookupField args "emoji_name") then
        (.error "Missing required arguments: message_id and emoji_name", [])
      else
        addReaction remote (jsGet args "message_id") (jsGet args "emoji_name")
    else if req.name = "zulip_get_channel_history" then
      if !truthyOpt (lookupField args "channel_name")
          || !truthyOpt (lookupField args "topic") then
        (.error "Missing required arguments: channel_name and topic", [])
      else
        getMessages remote (jsGet args "channel_name") (jsGet args "topic")
          (asNum (lookupField args "limit")) (lookupField args "anchor")
    else if req.name = "zulip_get_topics" then
      if (lookupField args "channel_id").isNone then
        (.error "Missing required argument: channel_id", [])
      else
        getTopics remote (jsGet args "channel_id")
    else if req.name = "zulip_subscribe_to_channel" then
      if !truthyOpt (lookupField args "channel_name") then
        (.error "Missing required argument: channel_name", [])
      else
        subscribeToStream remote (jsGet args "channel_name")
    else if req.name = "zulip_get_users" then
      getUsers remote
    else
      (.error ("Unknown tool: " ++ req.name), [])

/-- The serialized `{error: message}` payload the `catch` block builds
(lines 519-531). -/
def errorText (msg : String) : String :=
  stringify (.vObj [("error", Value.vStr msg)])

/-- Wrapping an outcome in the uniform envelope: a successful result is
serialized as the single text item (the per-case `return` of each
`switch` branch, lines 415-514); a caught failure becomes the serialized
`{error: message}` text item. -/
def respond : Except String Value × List RemoteCall → ToolCallResponse × List RemoteCall
  | (.ok v, calls) => (⟨[⟨"text", stringify v⟩]⟩, calls)
  | (.error msg, calls) => (⟨[⟨"text", errorText msg⟩]⟩, calls)

/-- The whole `CallToolRequest` handler: run the `try` body, convert
either outcome into the response envelope.  Total — no exception
escapes. -/
def dispatch (remote : Remote) (req : ToolCallRequest) :
    ToolCallResponse × List RemoteCall :=
  respond (dispatchTry remote req)

/-! ## Dispatcher reduction helpers -/

/-- The wrapped response always carries the calls of the wrapped outcome. -/
theorem respond_calls (p : Except String Value × List RemoteCall) :
    (respond p).2 = p.2 := by
  rcases p with ⟨res, calls⟩
  cases res <;> rfl

/-- The whole routing chain on a present arguments bag (definitional). -/
theorem dispatchTry_some (remote : Remote) (name : String) (args : Fields) :
    dispatchTry remote ⟨name, some args⟩
      = (if name = "zulip_list_channels" then
          getStreams remote (lookupField args "include_private")
            (lookupField args "include_web_public") (lookupField args "include_subscribed")
        else if name = "zulip_post_message" then
          if !truthyOpt (lookupField args "channel_name")
              || !truthyOpt (lookupField args "topic")
              || !truthyOpt (lookupField args "content") then
            (.error "Missing required arguments: channel_name, topic, and content", [])
          else
            sendStreamMessage remote (jsGet args "channel_name") (jsGet args "topic")
              (jsGet args "content")
        else if name = "zulip_send_direct_message" then
          if !truthyOpt (lookupField args "recipients")
              || !truthyOpt (lookupField args "content") then
            (.error "Missing required arguments: recipients and content", [])
          else
            sendDirectMessage remote (jsGet args "recipients") (jsGet args "content")
        else if name = "zulip_add_reaction" then
          if (lookupField args "message_id").isNone
              || !truthyOpt (lookupField args "emoji_name") then
            (.error "Missing required arguments: message_id and emoji_name", [])
          else
            addReaction remote (jsGet args "message_id") (jsGet args "emoji_name")
        else if name = "zulip_get_channel_history" then
          if !truthyOpt (lookupField args "channel_name")
              || !truthyOpt (lookupField args "topic") then
            (.error "Missing required arguments: channel_name and topic", [])
          else
            getMessages remote (jsGet args "channel_name") (jsGet args "topic")
              (asNum (lookupField args "limit")) (lookupField args "anchor")
        else if name = "zulip_get_topics" then
          if (lookupField args "channel_id").isNone then
            (.error "Missing required argument: channel_id", [])
          else
            getTopics remote (jsGet args "channel_id")
        else if name = "zulip_subscribe_to_channel" then
          if !truthyOpt (lookupField args "channel_name") then
            (.error "Missing required argument: channel_name", [])
          else
            subscribeToStream remote (jsGet args "channel_name")
        else if name = "zulip_get_users" then
          getUsers remote
        else
          (.error ("Unknown tool: " ++ name), [])) := rfl

/-- The `zulip_post_message` case of the switch (definitional). -/
theorem dispatchTry_postMessage (remote : Remote) (args : Fields) :
    dispatchTry remote ⟨"zulip_post_message", some args⟩
      = (if !truthyOpt (lookupField args "channel_name")
            || !truthyOpt (lookupField args "topic")
            || !truthyOpt (lookupField args "content") then
          (.error "Missing required arguments: channel_name, topic, and content", [])
        else
          sendStreamMessage remote (jsGet args "channel_name") (jsGet args "topic")
            (jsGet args "content")) := rfl

/-- The `zulip_send_direct_message` case of the switch (definitional). -/
theorem dispatchTry_directMessage (remote : Remote) (args : Fields) :
    dispatchTry remote ⟨"zulip_send_direct_message", some args⟩
      = (if !truthyOpt (lookupField args "recipients")
            || !truthyOpt (lookupField args "content") then
          (.error "Missing required arguments: recipients and content", [])
        else
          sendDirectMessage remote (jsGet args "recipients") (jsGet args "content")) := rfl

/-- The `zulip_add_reaction` case of the switch (definitional). -/
theorem dispatchTry_addReaction (remote : Remote) (args : Fields) :
    dispatchTry remote ⟨"zulip_add_reaction", some args⟩
      = (if (lookupField args "message_id").isNone
            || !truthyOpt (lookupField args "emoji_name") then
          (.error "Missing required arguments: message_id and emoji_name", [])
        else
          addReaction remote (jsGet args "message_id") (jsGet args "emoji_name")) := rfl

/-- The `zulip_get_channel_history` case of the switch (definitional). -/
theorem dispatchTry_channelHistory (remote : Remote) (args : Fields) :
    dispatchTry remote ⟨"zulip_get_channel_history", some args⟩
      = (if !truthyOpt (lookupField args "channel_name")
            || !truthyOpt (lookupField args "topic") then
          (.error "Missing required arguments: channel_name and topic", [])
        else
          getMessages remote (jsGet args "channel_name") (jsGet args "topic")
            (asNum (lookupField args "limit")) (lookupField args "anchor")) := rfl

/-- The all-streams listing issued by the history operation: with all
three flags true, only `include_private` deviates from the remote
defaults and enters the parameter object. -/
theorem getStreams_all (remote : Remote) :
    getStreams remote (some (.vBool true)) (some (.vBool true)) (some (.vBool true))
      = (remote (.streamsRetrieve [("include_private", Value.vBool true)]),
         [.streamsRetrieve [("include_private", Value.vBool true)]]) := rfl

/-- A strict-equality hit against a string pins the property to exactly
that string. -/
theorem strictEq_vStr : ∀ (o : Option Value) (n : String),
    strictEq o (.vStr n) = true → o = some (.vStr n)
  | none, _, h => by simp [strictEq] at h
  | some .vNull, _, h => by simp [strictEq] at h
  | some (.vBool b), _, h => by simp [strictEq] at h
  | some (.vNum m), _, h => by simp [strictEq] at h
  | some (.vStr a), n, h => by
    simp [strictEq] at h
    rw [h]
  | some (.vArr xs), _, h => by simp [strictEq] at h
  | some (.vObj fs), _, h => by simp [strictEq] at h

/-! ## Concrete fixtures for the witnesses -/

/-- A remote that answers every call with `null`. -/
def remoteOkNull : Remote := fun _ => .ok .vNull

/-- A stream record as the remote returns it. -/
def generalStream : Value :=
  .vObj [("name", Value.vStr "general"), ("stream_id", Value.vNum 7)]

/-- A streams-listing response containing only `general`. -/
def streamsResp : Value :=
  .vObj [("result", Value.vStr "success"), ("streams", .vArr [generalStream])]

/-- A generic success payload. -/
def usersResp : Value := .vObj [("result", Value.vStr "success")]

/-- A remote whose stream listing knows one stream, `general`, and which
answers everything else with a generic success payload. -/
def remoteFix : Remote := fun c =>
  match c with
  | .streamsRetrieve _ => .ok streamsResp
  | _ => .ok usersResp

/-- The parameter object of the message-retrieve call the channel-history
operation issues: the serialized two-part stream+topic narrow, the two
floor-divided halves of the limit, and the anchor. -/
def histParams (streamName topic : String) (lim : Int) (anchor : String) : Fields :=
  [("narrow", Value.vStr (stringify (.vArr
      [.vObj [("operator", Value.vStr "stream"), ("operand", Value.vStr streamName)],
       .vObj [("operator", Value.vStr "topic"), ("operand", Value.vStr topic)]]))),
   ("num_before", Value.vNum (Int.fdiv lim 2)),
   ("num_after", Value.vNum (Int.fdiv lim 2)),
   ("anchor", Value.vStr anchor)]

/-! ## The claims -/

/-- C1: every incoming tool-call request — any tool name, any argument
bag, and whatever the remote does — produces exactly one response whose
single content item is a text item; a failure anywhere in validation,
routing or the facade call surfaces as the JSON encoding of
`{error: message}`, and a success as the JSON encoding of the raw
result.  No exception escapes the handler: `dispatch` is total and
always returns this envelope. -/
theorem claim_C1 (remote : Remote) (req : ToolCallRequest) :
    (dispatch remote req).1.content.length = 1
    ∧ (∀ m calls, dispatchTry remote req = (.error m, calls) →
        dispatch remote req = (⟨[⟨"text", errorText m⟩]⟩, calls))
    ∧ (∀ v calls, dispatchTry remote req = (.ok v, calls) →
        dispatch remote req = (⟨[⟨"text", stringify v⟩]⟩, calls)) := by
  refine ⟨?_, fun m calls h => ?_, fun v calls h => ?_⟩
  · rw [dispatch]
    rcases dispatchTry remote req with ⟨res, calls⟩
    cases res <;> rfl
  · rw [dispatch, h]
    rfl
  · rw [dispatch, h]
    rfl

/-- C1 witness: a request without arguments, against a remote that would
answer anything, surfaces the validation failure as the error envelope. -/
theorem claim_C1_witness :
    dispatch remoteOkNull ⟨"zulip_get_users", none⟩
      = (⟨[⟨"text", errorText "No arguments provided"⟩]⟩, []) :=
  (claim_C1 remoteOkNull ⟨"zulip_get_users", none⟩).2.1 "No arguments provided" [] rfl

/-- C5: for every tool name — catalog or unknown — an absent arguments
bag yields the "No arguments provided" error envelope and no remote
call; the presence check runs before tool-name routing, so even an
unknown name gets this message rather than the unknown-tool one. -/
theorem claim_C5 (remote : Remote) (name : String) :
    dispatch remote ⟨name, none⟩
      = (⟨[⟨"text", errorText "No arguments provided"⟩]⟩, []) := rfl

/-- C9: a present arguments bag with a tool name outside the fixed
catalog of 8 yields the `Unknown tool: <name>` error envelope, and no
remote call is issued. -/
theorem claim_C9 (remote : Remote) (name : String) (args : Fields)
    (h : name ∉ (["zulip_list_channels", "zulip_post_message",
      "zulip_send_direct_message", "zulip_add_reaction", "zulip_get_channel_history",
      "zulip_get_topics", "zulip_subscribe_to_channel", "zulip_get_users"] : List String)) :
    dispatch remote ⟨name, some args⟩
      = (⟨[⟨"text", errorText ("Unknown tool: " ++ name)⟩]⟩, []) := by
  simp only [List.mem_cons, List.not_mem_nil, or_false, not_or] at h
  obtain ⟨h1, h2, h3, h4, h5, h6, h7, h8⟩ := h
  rw [dispatch, dispatchTry_some, if_neg h1, if_neg h2, if_neg h3, if_neg h4, if_neg h5,
    if_neg h6, if_neg h7, if_neg h8]
  rfl

/-- C9 witness: the spec's example name. -/
theorem claim_C9_witness :
    dispatch remoteOkNull ⟨"nonexistent_tool", some []⟩
      = (⟨[⟨"text", errorText ("Unknown tool: " ++ "nonexistent_tool")⟩]⟩, []) :=
  claim_C9 remoteOkNull "nonexistent_tool" [] (by decide)

/-- C4: `zulip_add_reaction` is rejected — with the message naming
`message_id` and `emoji_name` — exactly when `message_id` is absent
(strictly `undefined`) or `emoji_name` is not truthy; in particular a
request with `message_id = 0` and a truthy emoji passes validation and
the reaction-add call is issued carrying message id `0`. -/
theorem claim_C4 (remote : Remote) (args : Fields) :
    ((lookupField args "message_id").isNone = true
        ∨ truthyOpt (lookupField args "emoji_name") = false →
      dispatch remote ⟨"zulip_add_reaction", some args⟩
        = (⟨[⟨"text",
            errorText "Missing required arguments: message_id and emoji_name"⟩]⟩, []))
    ∧ ((lookupField args "message_id").isNone = false →
       truthyOpt (lookupField args "emoji_name") = true →
      dispatch remote ⟨"zulip_add_reaction", some args⟩
        = respond (addReaction remote (jsGet args "message_id") (jsGet args "emoji_name")))
    ∧ (∀ emoji, truthy emoji = true →
      (dispatch remote ⟨"zulip_add_reaction",
          some [("message_id", Value.vNum 0), ("emoji_name", emoji)]⟩).2
        = [.reactionsAdd [("message_id", Value.vNum 0), ("emoji_name", emoji)]]) := by
  refine ⟨fun h => ?_, fun hm he => ?_, fun emoji he => ?_⟩
  · rw [dispatch, dispatchTry_addReaction, if_pos (by rcases h with h | h <;> simp [h])]
    rfl
  · rw [dispatch, dispatchTry_addReaction, if_neg (by simp [hm, he])]
  · rw [dispatch, dispatchTry_addReaction,
      if_neg (by simp [lookupField, truthyOpt, he]), respond_calls]
    rfl

/-- C4 witness: message id `0` with emoji `wave` issues the reaction-add
call with id `0`. -/
theorem claim_C4_witness :
    (dispatch remoteOkNull ⟨"zulip_add_reaction",
        some [("message_id", Value.vNum 0), ("emoji_name", Value.vStr "wave")]⟩).2
      = [.reactionsAdd [("message_id", Value.vNum 0),
          ("emoji_name", Value.vStr "wave")]] :=
  (claim_C4 remoteOkNull []).2.2 (Value.vStr "wave") rfl

/-- C6: `zulip_post_message` is rejected — with the message naming the
required fields and no remote call issued — whenever any of
`channel_name`, `topic`, `content` is absent or falsy (the spec's
example bag `{channel_name: "general"}` included); when all three are
truthy, a message-send call of kind `stream` carrying the three fields
is issued. -/
theorem claim_C6 (remote : Remote) (args : Fields) :
    ((truthyOpt (lookupField args "channel_name") = false
        ∨ truthyOpt (lookupField args "topic") = false
        ∨ truthyOpt (lookupField args "content") = false) →
      dispatch remote ⟨"zulip_post_message", some args⟩
        = (⟨[⟨"text",
            errorText "Missing required arguments: channel_name, topic, and content"⟩]⟩, []))
    ∧ (truthyOpt (lookupField args "channel_name") = true →
       truthyOpt (lookupField args "topic") = true →
       truthyOpt (lookupField args "content") = true →
      dispatch remote ⟨"zulip_post_message", some args⟩
        = respond (sendStreamMessage remote (jsGet args "channel_name")
            (jsGet args "topic") (jsGet args "content"))
      ∧ (dispatch remote ⟨"zulip_post_message", some args⟩).2
        = [.messagesSend [("to", jsGet args "channel_name"),
            ("type", Value.vStr "stream"), ("topic", jsGet args "topic"),
            ("content", jsGet args "content")]])
    ∧ dispatch remote ⟨"zulip_post_message", some [("channel_name", Value.vStr "general")]⟩
        = (⟨[⟨"text",
            errorText "Missing required arguments: channel_name, topic, and content"⟩]⟩, []) := by
  refine ⟨fun h => ?_, fun h1 h2 h3 => ⟨?_, ?_⟩, ?_⟩
  · rw [dispatch, dispatchTry_postMessage, if_pos (by rcases h with h | h | h <;> simp [h])]
    rfl
  · rw [dispatch, dispatchTry_postMessage, if_neg (by simp [h1, h2, h3])]
  · rw [dispatch, dispatchTry_postMessage, if_neg (by simp [h1, h2, h3]), respond_calls]
    rfl
  · rfl

/-- C6 witness: the spec's example bag, missing `topic` and `content`,
is rejected with the naming message and no remote call. -/
theorem claim_C6_witness :
    dispatch remoteOkNull ⟨"zulip_post_message",
        some [("channel_name", Value.vStr "general")]⟩
      = (⟨[⟨"text",
          errorText "Missing required arguments: channel_name, topic, and content"⟩]⟩, []) :=
  (claim_C6 remoteOkNull [("channel_name", Value.vStr "general")]).1
    (Or.inr (Or.inl rfl))

/-- C10: `zulip_send_direct_message` validation only checks truthiness
of `recipients` and `content`; an empty recipients array — truthy in
JavaScript — passes, and the message-send call of kind `private` is
issued with the empty recipient list.  Non-emptiness is never checked. -/
theorem claim_C10 (remote : Remote) (args : Fields) :
    ((truthyOpt (lookupField args "recipients") = false
        ∨ truthyOpt (lookupField args "content") = false) →
      dispatch remote ⟨"zulip_send_direct_message", some args⟩
        = (⟨[⟨"text",
            errorText "Missing required arguments: recipients and content"⟩]⟩, []))
    ∧ (truthyOpt (lookupField args "recipients") = true →
       truthyOpt (lookupField args "content") = true →
      dispatch remote ⟨"zulip_send_direct_message", some args⟩
        = respond (sendDirectMessage remote (jsGet args "recipients")
            (jsGet args "content")))
    ∧ (∀ content, truthy content = true →
      (dispatch remote ⟨"zulip_send_direct_message",
          some [("recipients", Value.vArr []), ("content", content)]⟩).2
        = [.messagesSend [("to", Value.vArr []), ("type", Value.vStr "private"),
            ("content", content)]]) := by
  refine ⟨fun h => ?_, fun h1 h2 => ?_, fun content hc => ?_⟩
  · rw [dispatch, dispatchTry_directMessage, if_pos (by rcases h with h | h <;> simp [h])]
    rfl
  · rw [dispatch, dispatchTry_directMessage, if_neg (by simp [h1, h2])]
  · rw [dispatch, dispatchTry_directMessage,
      if_neg (by simp [lookupField, truthyOpt, hc,
        show truthy (Value.vArr []) = true from rfl]), respond_calls]
    rfl

/-- C10 witness: an empty recipients array with content `"hi"` issues
the private message-send call with the empty list. -/
theorem claim_C10_witness :
    (dispatch remoteOkNull ⟨"zulip_send_direct_message",
        some [("recipients", Value.vArr []), ("content", Value.vStr "hi")]⟩).2
      = [.messagesSend [("to", Value.vArr []), ("type", Value.vStr "private"),
          ("content", Value.vStr "hi")]] :=
  (claim_C10 remoteOkNull []).2.2 (Value.vStr "hi") rfl

/-- C8: the stream-listing operation sends a flag exactly when it
deviates from the remote default: `include_private` present (as `true`)
iff requested, `include_web_public` present (as `false`) iff declined,
`include_subscribed` present (as `false`) iff declined; and omitted
arguments take the defaults `false`, `true`, `true`. -/
theorem claim_C8 (remote : Remote) (p w s : Bool) :
    (∃ ps : Fields,
      getStreams remote (some (.vBool p)) (some (.vBool w)) (some (.vBool s))
        = (remote (.streamsRetrieve ps), [.streamsRetrieve ps])
      ∧ lookupField ps "include_private" = (if p then some (Value.vBool true) else none)
      ∧ lookupField ps "include_web_public" = (if w then none else some (Value.vBool false))
      ∧ lookupField ps "include_subscribed" = (if s then none else some (Value.vBool false)))
    ∧ getStreams remote none none none
      = getStreams remote (some (.vBool false)) (some (.vBool true)) (some (.vBool true)) := by
  cases p <;> cases w <;> cases s <;> exact ⟨⟨_, rfl, rfl, rfl, rfl⟩, rfl⟩

/-- C2: a channel-history call that resolves its stream issues the
message-retrieve call with `num_before = num_after = ⌊limit / 2⌋`
(floor division), the given anchor, and the two-part stream+topic narrow
serialized as JSON — preceded by exactly the all-streams listing.
Floor division gives 10+10 for limit 20, 3+3 for limit 7, and the two
halves of every odd limit sum to `limit - 1`. -/
theorem claim_C2 (remote : Remote) (streamName topic : String) (lim : Int)
    (anchor : String) (resp : Value) (streams : List Value)
    (hresp : remote (.streamsRetrieve [("include_private", Value.vBool true)]) = .ok resp)
    (hstreams : getProp resp "streams" = some (.vArr streams))
    (hfound : (findByName streams (.vStr streamName)).isSome = true) :
    (getMessages remote (.vStr streamName) (.vStr topic) (some lim) (some (.vStr anchor))
      = (remote (.messagesRetrieve (histParams streamName topic lim anchor)),
         [.streamsRetrieve [("include_private", Value.vBool true)],
          .messagesRetrieve (histParams streamName topic lim anchor)]))
    ∧ Int.fdiv 20 2 = 10
    ∧ Int.fdiv 7 2 = 3
    ∧ (∀ l : Int, Odd l → Int.fdiv l 2 + Int.fdiv l 2 = l - 1) := by
  obtain ⟨s, hs⟩ := Option.isSome_iff_exists.mp hfound
  refine ⟨?_, by decide, by decide, fun l hl => ?_⟩
  · rw [getMessages, getStreams_all, hresp]
    simp only [hstreams, hs]
    rfl
  · obtain ⟨k, hk⟩ := hl
    subst hk
    rw [Int.fdiv_eq_ediv _ (by norm_num)]
    omega

/-- C2 witness: the spec's scenario — a facade whose stream listing
knows `general` — at limit 20 and anchor `newest`. -/
theorem claim_C2_witness :
    getMessages remoteFix (.vStr "general") (.vStr "intro") (some 20) (some (.vStr "newest"))
      = (remoteFix (.messagesRetrieve (histParams "general" "intro" 20 "newest")),
         [.streamsRetrieve [("include_private", Value.vBool true)],
          .messagesRetrieve (histParams "general" "intro" 20 "newest")]) :=
  (claim_C2 remoteFix "general" "intro" 20 "newest" streamsResp [generalStream]
    rfl rfl rfl).1

/-- C3: the channel-history operation first issues the all-streams
listing and searches it for an exact name match (a hit always carries
exactly the requested name); when no stream matches, it fails with the
not-found message naming the stream, issues no message-retrieve call,
and the failure reaches the transport as the `{error: …}` envelope
rather than an unhandled exception. -/
theorem claim_C3 (remote : Remote) (streamName topic : String)
    (resp : Value) (streams : List Value)
    (hresp : remote (.streamsRetrieve [("include_private", Value.vBool true)]) = .ok resp)
    (hstreams : getProp resp "streams" = some (.vArr streams))
    (hnone : findByName streams (.vStr streamName) = none) :
    (∀ (lim : Option Int) (anchor : Option Value),
      getMessages remote (.vStr streamName) (.vStr topic) lim anchor
        = (.error ("Stream \"" ++ streamName ++ "\" not found"),
           [.streamsRetrieve [("include_private", Value.vBool true)]]))
    ∧ (∀ (streams2 : List Value) (s : Value),
        findByName streams2 (.vStr streamName) = some s →
        getProp s "name" = some (.vStr streamName))
    ∧ (streamName ≠ "" → topic ≠ "" →
        dispatch remote ⟨"zulip_get_channel_history",
          some [("channel_name", Value.vStr streamName), ("topic", Value.vStr topic)]⟩
          = (⟨[⟨"text", errorText ("Stream \"" ++ streamName ++ "\" not found")⟩]⟩,
             [.streamsRetrieve [("include_private", Value.vBool true)]])) := by
  have hmain : ∀ (lim : Option Int) (anchor : Option Value),
      getMessages remote (.vStr streamName) (.vStr topic) lim anchor
        = (.error ("Stream \"" ++ streamName ++ "\" not found"),
           [.streamsRetrieve [("include_private", Value.vBool true)]]) := by
    intro lim anchor
    rw [getMessages, getStreams_all, hresp]
    simp only [hstreams, hnone]
    rfl
  refine ⟨hmain, fun streams2 s hfind => ?_, fun h1 h2 => ?_⟩
  · induction streams2 with
    | nil => simp [findByName] at hfind
    | cons a t ih =>
      rw [findByName] at hfind
      by_cases heq : strictEq (getProp a "name") (.vStr streamName) = true
      · rw [if_pos heq] at hfind
        cases hfind
        exact strictEq_vStr _ _ heq
      · rw [if_neg heq] at hfind
        exact ih hfind
  · have ht1 : truthyOpt (some (Value.vStr streamName)) = true := by
      simp [truthyOpt, truthy, h1]
    have ht2 : truthyOpt (some (Value.vStr topic)) = true := by
      simp [truthyOpt, truthy, h2]
    have hdt : dispatchTry remote ⟨"zulip_get_channel_history",
        some [("channel_name", Value.vStr streamName), ("topic", Value.vStr topic)]⟩
        = getMessages remote (.vStr streamName) (.vStr topic) none none := by
      rw [dispatchTry_channelHistory, if_neg (by simp [lookupField, ht1, ht2])]
      rfl
    rw [dispatch, hdt, hmain none none]
    rfl

/-- C3 witness: the spec's scenario — `ghost-channel` against a facade
whose listing knows only `general` — fails with the naming message,
issues only the stream listing, and surfaces as the error envelope. -/
theorem claim_C3_witness :
    getMessages remoteFix (.vStr "ghost-channel") (.vStr "t") (some 20)
        (some (.vStr "newest"))
      = (.error "Stream \"ghost-channel\" not found",
         [.streamsRetrieve [("include_private", Value.vBool true)]])
    ∧ dispatch remoteFix ⟨"zulip_get_channel_history",
        some [("channel_name", Value.vStr "ghost-channel"), ("topic", Value.vStr "t")]⟩
      = (⟨[⟨"text", errorText "Stream \"ghost-channel\" not found"⟩]⟩,
         [.streamsRetrieve [("include_private", Value.vBool true)]]) :=
  ⟨(claim_C3 remoteFix "ghost-channel" "t" streamsResp [generalStream]
      rfl rfl rfl).1 (some 20) (some (.vStr "newest")),
   (claim_C3 remoteFix "ghost-channel" "t" streamsResp [generalStream]
      rfl rfl rfl).2.2 (by decide) (by decide)⟩

/-- C7: when the facade call of any tool succeeds with raw result `R`,
the response is exactly one text item whose text is the JSON encoding of
`R`, and decoding that text yields `R` back with nothing added or
removed. -/
theorem claim_C7 (remote : Remote) (req : ToolCallRequest) (v : Value)
    (calls : List RemoteCall) (h : dispatchTry remote req = (.ok v, calls)) :
    dispatch remote req = (⟨[⟨"text", stringify v⟩]⟩, calls)
    ∧ (dispatch remote req).1.content.length = 1
    ∧ decode (stringify v) = some v := by
  refine ⟨?_, ?_, decode_stringify v⟩
  · rw [dispatch, h]
    rfl
  · rw [dispatch, h]
    rfl

/-- C7 witness: a successful `zulip_get_users` call round-trips its
payload through the envelope. -/
theorem claim_C7_witness :
    dispatch remoteFix ⟨"zulip_get_users", some []⟩
      = (⟨[⟨"text", stringify usersResp⟩]⟩, [.usersRetrieve])
    ∧ decode (stringify usersResp) = some usersResp :=
  ⟨(claim_C7 remoteFix ⟨"zulip_get_users", some []⟩ usersResp [.usersRetrieve] rfl).1,
   (claim_C7 remoteFix ⟨"zulip_get_users", some []⟩ usersResp [.usersRetrieve] rfl).2.2⟩

end ZulipMcp
